import Mathlib

/-!
Verification development for the Alibaba RFQ scraper
(src/alibaba_rfq_scraper_improved.py).

The core pipeline is embedded shallowly:
* text utilities (`clean_text`, Python substring search, `str.replace`)
  are modelled on `List Char`;
* the regular expressions used for field extraction are modelled as
  hand written leftmost matchers with the same backtracking behaviour
  as the CPython `re` module on the concrete patterns of the source;
* the BeautifulSoup container is abstracted as a record of the results
  of the three library calls the extractor performs on it
  (`get_text`, `find` for the detail anchor, `find_all` for images);
  each result is an `Except Unit` value so that an internal error of a
  library call (caught by the broad `except` of the source) can be
  represented;
* the per page candidate loop, the seen set, the pagination loop and
  the container locator are modelled as pure functions, with the page
  renderer passed in as an oracle `String -> List Container`.

All definitions are executable and reduce in the kernel, so concrete
runs can be settled by `decide`.
-/

set_option maxRecDepth 4000

namespace RFQScraper

/-! ## Python string primitives -/

/-- ASCII whitespace characters recognised by the Python regex class
for whitespace and by `str.strip` (inputs here are ASCII). -/
def pyIsSpace (c : Char) : Bool :=
  c == ' ' || c == '\t' || c == '\n' || c == '\r' || c == '\x0b' || c == '\x0c'

/-- Digit class of the Python regexes. -/
def isDigitC (c : Char) : Bool := c.isDigit

/-- Does the second list start with the first one (case sensitive)? -/
def leadsWith : List Char → List Char → Bool
  | [], _ => true
  | _ :: _, [] => false
  | p :: ps, c :: cs => p == c && leadsWith ps cs

/-- Does the second list start with the first one, comparing ASCII
case insensitively (the effect of `re.IGNORECASE`)? -/
def leadsWithCI : List Char → List Char → Bool
  | [], _ => true
  | _ :: _, [] => false
  | p :: ps, c :: cs => p.toLower == c.toLower && leadsWithCI ps cs

/-- Index of the first occurrence of `pat` in a list, as in Python
`str.find` (restricted to the found case). -/
def findSub (pat : List Char) : List Char → Option Nat
  | [] => if leadsWith pat [] then some 0 else none
  | c :: t => if leadsWith pat (c :: t) then some 0 else (findSub pat t).map (· + 1)

/-- Python substring test `pat in s`. -/
def pyIn (pat s : List Char) : Bool := (findSub pat s).isSome

/-- Does any of the given patterns occur (case insensitively) anywhere
in the list? -/
def anySubCI (pats : List (List Char)) : List Char → Bool
  | [] => pats.any fun u => leadsWithCI u []
  | c :: t => (pats.any fun u => leadsWithCI u (c :: t)) || anySubCI pats t

/-- List membership as a boolean via decidable equality; models the
Python `in` test on the seen set and on accumulated container lists. -/
def elemD {α : Type} [DecidableEq α] (a : α) : List α → Bool
  | [] => false
  | b :: t => if a = b then true else elemD a t

/-- Python `str.strip()` on ASCII input. -/
def pyStrip (t : List Char) : List Char :=
  ((t.dropWhile pyIsSpace).reverse.dropWhile pyIsSpace).reverse

/-- Collapse runs of space characters to a single space; applied after
mapping every whitespace character to a space this is exactly the
substitution of the whitespace run regex by one space. -/
def squeeze : List Char → List Char
  | [] => []
  | [c] => [c]
  | c :: d :: t =>
    if c == ' ' && d == ' ' then squeeze (d :: t) else c :: squeeze (d :: t)

/-- Punctuation kept by the character filter of `clean_text`. -/
def allowedPunct : List Char :=
  ['-', '.', ',', '(', ')', '/', '&', '%', '#', '@', '!', '?', ':', ';']

/-- Character class kept by `clean_text` (word characters, whitespace
and the explicit punctuation list of the source regex). -/
def keepChar (c : Char) : Bool :=
  c.isAlphanum || c == '_' || pyIsSpace c || elemD c allowedPunct

/-- Model of `clean_text`: empty guard, strip, collapse whitespace runs
to single spaces, then drop the characters outside the kept class. -/
def cleanTextL (t : List Char) : List Char :=
  if t.isEmpty then []
  else (squeeze ((pyStrip t).map fun c => if pyIsSpace c then ' ' else c)).filter keepChar

/-- `clean_text` on strings. -/
def cleanText (s : String) : String := String.mk (cleanTextL s.toList)

/-- Python `str.replace` (all occurrences), run with enough fuel; the
fuel argument makes the definition structurally recursive so that it
reduces in the kernel. -/
def pyReplaceF (pat rep : List Char) : Nat → List Char → List Char
  | 0, s => s
  | _ + 1, [] => []
  | f + 1, c :: t =>
    if !pat.isEmpty && leadsWith pat (c :: t) then
      rep ++ pyReplaceF pat rep f ((c :: t).drop pat.length)
    else c :: pyReplaceF pat rep f t

/-- ASCII lowercasing, the model of Python `str.lower` on ASCII. -/
def lowerL (t : List Char) : List Char := t.map Char.toLower

/-! ## Leftmost regex search machinery -/

/-- `re.search` semantics: try the matcher at every start position from
the left, also at the final empty suffix, and return the first hit. -/
def searchFirst (matchAt : List Char → Option (List Char)) : List Char → Option (List Char)
  | [] => matchAt []
  | c :: t =>
    match matchAt (c :: t) with
    | some g => some g
    | none => searchFirst matchAt t

/-- `re.findall` semantics for patterns that never match the empty
string: leftmost, non overlapping, continuing after each match.  The
matcher returns the length of the match at the given suffix. -/
def findAllF (matchAt : List Char → Option Nat) : Nat → List Char → List (List Char)
  | 0, _ => []
  | _ + 1, [] => []
  | f + 1, c :: t =>
    match matchAt (c :: t) with
    | some len => ((c :: t).take len) :: findAllF matchAt f ((c :: t).drop (max len 1))
    | none => findAllF matchAt f t

/-- Consume a literal word case insensitively, returning the rest. -/
def stripCI (pat s : List Char) : Option (List Char) :=
  if leadsWithCI pat s then some (s.drop pat.length) else none

/-! ## The concrete field patterns -/

/-- Unit alternatives of the first time pattern, in source order. -/
def timeUnits : List (List Char) :=
  ["hour", "hours", "minute", "minutes", "day", "days"].map String.toList

/-- Tail alternatives of the first time pattern. -/
def agoWords : List (List Char) :=
  ["ago", "before"].map String.toList

/-- Matcher (at one position) for the first inquiry time pattern:
digits, whitespace, a time unit, whitespace, then ago or before, all
case insensitive; alternatives are tried in source order with
backtracking into the following context, as the `re` engine does. -/
def matchTime1 (s : List Char) : Option (List Char) :=
  let ds := s.takeWhile isDigitC
  if ds.isEmpty then none else
  let s1 := s.drop ds.length
  let ws1 := s1.takeWhile pyIsSpace
  if ws1.isEmpty then none else
  let s2 := s1.drop ws1.length
  match timeUnits.findSome? (fun u =>
    if leadsWithCI u s2 then
      let s3 := s2.drop u.length
      let ws2 := s3.takeWhile pyIsSpace
      if ws2.isEmpty then none else
      let s4 := s3.drop ws2.length
      agoWords.findSome? fun a =>
        if leadsWithCI a s4 then some (u.length + ws2.length + a.length) else none
    else none) with
  | some rest => some (s.take (ds.length + ws1.length + rest))
  | none => none

/-- Matcher for the second inquiry time pattern: digits, whitespace and
a unit, without the trailing ago or before; the first alternative that
matches wins, so on the plural form only the singular part is taken. -/
def matchTime2 (s : List Char) : Option (List Char) :=
  let ds := s.takeWhile isDigitC
  if ds.isEmpty then none else
  let s1 := s.drop ds.length
  let ws1 := s1.takeWhile pyIsSpace
  if ws1.isEmpty then none else
  let s2 := s1.drop ws1.length
  match timeUnits.findSome? (fun u =>
    if leadsWithCI u s2 then some u.length else none) with
  | some ul => some (s.take (ds.length + ws1.length + ul))
  | none => none

/-- Inquiry time cascade: first pattern, then the fallback pattern,
else the previous value. -/
def timeFrom (t : List Char) (old : String) : String :=
  match searchFirst matchTime1 t with
  | some g => String.mk g
  | none =>
    match searchFirst matchTime2 t with
    | some g => String.mk g
    | none => old

/-- Shared tail of the first quotes pattern after the optional plural s:
whitespace, the word Left, whitespace, then the captured digits. -/
def matchQuotesTail (r : List Char) : Option (List Char) :=
  let ws1 := r.takeWhile pyIsSpace
  if ws1.isEmpty then none else
  match stripCI "left".toList (r.drop ws1.length) with
  | none => none
  | some r2 =>
    let ws2 := r2.takeWhile pyIsSpace
    if ws2.isEmpty then none else
    let ds := (r2.drop ws2.length).takeWhile isDigitC
    if ds.isEmpty then none else some ds

/-- Matcher for the first quotes pattern (Quote, optional s, Left,
digits group), case insensitive, greedy on the optional s with
backtracking. -/
def matchQuotes1 (s : List Char) : Option (List Char) :=
  match stripCI "quote".toList s with
  | none => none
  | some rest =>
    match rest with
    | c :: rest2 =>
      if c.toLower == 's' then
        match matchQuotesTail rest2 with
        | some g => some g
        | none => matchQuotesTail rest
      else matchQuotesTail rest
    | [] => none

/-- Matcher for the second quotes pattern (digits group, the word quote
with optional s, the word left), case insensitive. -/
def matchQuotes2 (s : List Char) : Option (List Char) :=
  let ds := s.takeWhile isDigitC
  if ds.isEmpty then none else
  let s1 := s.drop ds.length
  let ws1 := s1.takeWhile pyIsSpace
  if ws1.isEmpty then none else
  match stripCI "quote".toList (s1.drop ws1.length) with
  | none => none
  | some r =>
    let fin := fun (r2 : List Char) =>
      let ws2 := r2.takeWhile pyIsSpace
      if ws2.isEmpty then none else
      if leadsWithCI "left".toList (r2.drop ws2.length) then some ds else none
    match r with
    | c :: r2 =>
      if c.toLower == 's' then
        match fin r2 with
        | some g => some g
        | none => fin r
      else fin r
    | [] => fin r

/-- Quotes left cascade. -/
def quotesFrom (t : List Char) (old : String) : String :=
  match searchFirst matchQuotes1 t with
  | some g => String.mk g
  | none =>
    match searchFirst matchQuotes2 t with
    | some g => String.mk g
    | none => old

/-- Characters excluded by the negated class of the quantity patterns. -/
def stopChar (c : Char) : Bool := c == ',' || c == '\n' || c == '\r'

/-- Unit vocabulary of the first quantity pattern, in source order. -/
def unitsQ1 : List (List Char) :=
  ["Piece", "Unit", "Box", "Carton", "Meter", "Kilogram", "Ton", "Liter"].map String.toList

/-- Unit vocabulary of the second quantity pattern, in source order. -/
def unitsQ2 : List (List Char) :=
  ["Piece", "Pieces", "Unit", "Units", "Box", "Boxes", "Carton", "Cartons",
   "Meter", "Meters", "Kilogram", "Ton", "Liter"].map String.toList

/-- Matcher for the first quantity pattern: the words Quantity and
Required, a colon, optional whitespace, then a group consisting of
digits plus everything up to the next comma or line break, provided a
unit word occurs inside that stretch.  Because the group ends with a
greedy negated class, the captured text always runs from the digits to
the first stop character, independent of where the unit sits. -/
def matchQty1 (s : List Char) : Option (List Char) :=
  match stripCI "quantity".toList s with
  | none => none
  | some s1 =>
    let w1 := s1.takeWhile pyIsSpace
    if w1.isEmpty then none else
    match stripCI "required".toList (s1.drop w1.length) with
    | none => none
    | some s2 =>
      match s2 with
      | c :: s3 =>
        if c == ':' then
          let s4 := s3.dropWhile pyIsSpace
          let ds := s4.takeWhile isDigitC
          if ds.isEmpty then none else
          let span := (s4.drop ds.length).takeWhile fun ch => !(stopChar ch)
          if anySubCI unitsQ1 span then some (ds ++ span) else none
        else none
      | [] => none

/-- Matcher for the second quantity pattern: digits, optional
whitespace, a unit word, then everything up to the next comma or line
break. -/
def matchQty2 (s : List Char) : Option (List Char) :=
  let ds := s.takeWhile isDigitC
  if ds.isEmpty then none else
  let s1 := s.drop ds.length
  let w := s1.takeWhile pyIsSpace
  let s2 := s1.drop w.length
  if unitsQ2.any (fun u => leadsWithCI u s2) then
    some (ds ++ w ++ s2.takeWhile fun ch => !(stopChar ch))
  else none

/-- Second step of the quantity cascade. -/
def quantitySecond (t : List Char) (old : String) : String :=
  match searchFirst matchQty2 t with
  | some g =>
    let q := cleanTextL g
    if q.length < 100 then String.mk q else old
  | none => old

/-- Quantity cascade: a pattern only sets the field when its cleaned
match stays under 100 characters, otherwise the next pattern is tried,
exactly as the break placement of the source loop has it. -/
def quantityFrom (t : List Char) (old : String) : String :=
  match searchFirst matchQty1 t with
  | some g =>
    let q := cleanTextL g
    if q.length < 100 then String.mk q else quantitySecond t old
  | none => quantitySecond t old

/-- Length of a match of a capitalised word: one upper case letter then
at least one lower case letter. -/
def matchCapWord (s : List Char) : Option Nat :=
  match s with
  | c :: t =>
    if c.isUpper then
      let ls := t.takeWhile Char.isLower
      if ls.isEmpty then none else some (1 + ls.length)
    else none
  | [] => none

/-- Length matcher for the first buyer name pattern: two capitalised
words separated by whitespace, with an optional third one (taken
greedily when it matches). -/
def matchName1 (s : List Char) : Option Nat :=
  match matchCapWord s with
  | none => none
  | some l1 =>
    let s1 := s.drop l1
    let w1 := s1.takeWhile pyIsSpace
    if w1.isEmpty then none else
    match matchCapWord (s1.drop w1.length) with
    | none => none
    | some l2 =>
      let base := l1 + w1.length + l2
      let s2 := (s1.drop w1.length).drop l2
      let w2 := s2.takeWhile pyIsSpace
      if w2.isEmpty then some base else
      match matchCapWord (s2.drop w2.length) with
      | some l3 => some (base + w2.length + l3)
      | none => some base

/-- Length matcher for the second buyer name pattern: a capitalised
word, whitespace, a run of upper case letters and then a possibly empty
run of lower case letters. -/
def matchName2 (s : List Char) : Option Nat :=
  match matchCapWord s with
  | none => none
  | some l1 =>
    let s1 := s.drop l1
    let w1 := s1.takeWhile pyIsSpace
    if w1.isEmpty then none else
    let s2 := s1.drop w1.length
    let us := s2.takeWhile Char.isUpper
    if us.isEmpty then none else
    let ls := (s2.drop us.length).takeWhile Char.isLower
    some (l1 + w1.length + us.length + ls.length)

/-- Boilerplate vocabulary excluded from buyer name candidates. -/
def excludeWords : List String :=
  ["Posted", "Quote", "United", "Arab", "Emirates", "Date", "Quantity",
   "Required", "Email", "Confirmed", "Quotes", "Left", "Before", "Piece"]

/-- A name candidate qualifies when it contains no excluded word (case
sensitive substring test) and is longer than five characters. -/
def qualifiesName (m : List Char) : Bool :=
  !(excludeWords.any fun w => pyIn w.toList m) && decide (5 < m.length)

/-- Buyer name: first qualifying match of the first pattern, else first
qualifying match of the second pattern (each stripped), else the
previous value. -/
def buyerNameFrom (t : List Char) (old : String) : String :=
  match (findAllF matchName1 t.length t).find? qualifiesName with
  | some m => String.mk (pyStrip m)
  | none =>
    match (findAllF matchName2 t.length t).find? qualifiesName with
    | some m => String.mk (pyStrip m)
    | none => old

/-! ## Data model -/

/-- Result of the two accessor calls on the detail anchor: its
flattened text and its href attribute (none when absent). -/
structure Anchor where
  text : String
  href : Option String
deriving DecidableEq

/-- An image node, reduced to its src attribute (empty when absent, the
default of the `get` call of the source). -/
structure Img where
  src : String
deriving DecidableEq

deriving instance DecidableEq for Except

/-- Abstract candidate container: the outcomes of the three library
calls the extractor performs on the BeautifulSoup node.  `getTextR`
models `get_text` on the container, `findLinkR` the `find` call for the
first detail anchor, `findImgsR` the `find_all` call for images.  An
`Except.error` value represents the library call raising, which the
broad exception handler of the extractor absorbs. -/
structure Container where
  getTextR : Except Unit String
  findLinkR : Except Unit (Option Anchor)
  findImgsR : Except Unit (List Img)
deriving DecidableEq

/-- The 16 field record produced per candidate, with the CSV column
names of the source turned into field names. -/
structure RFQRecord where
  rfqId : String
  title : String
  buyerName : String
  buyerImage : String
  inquiryTime : String
  quotesLeft : String
  country : String
  quantityRequired : String
  emailConfirmed : String
  experiencedBuyer : String
  completeOrderViaRFQ : String
  typicalReplies : String
  interactiveUser : String
  inquiryUrl : String
  inquiryDate : String
  scrapingDate : String
deriving DecidableEq

/-- The sentinel initialised record built at the top of the extractor;
the current run date fills both date columns. -/
def defaultRecord (d : String) : RFQRecord :=
  { rfqId := "N/A", title := "N/A", buyerName := "N/A", buyerImage := "N/A"
    inquiryTime := "N/A", quotesLeft := "N/A", country := "United Arab Emirates"
    quantityRequired := "N/A", emailConfirmed := "No", experiencedBuyer := "No"
    completeOrderViaRFQ := "No", typicalReplies := "No", interactiveUser := "No"
    inquiryUrl := "N/A", inquiryDate := d, scrapingDate := d }

/-- Fixed site base URL of the scraper instance. -/
def baseUrl : String := "https://sourcing.alibaba.com"

/-- Resolution of a relative href against the fixed base URL.  The
source only joins when the href starts with a slash; for the constant
scheme-and-host base of the scraper, joining a protocol relative href
prepends the scheme and joining an absolute path prepends the base. -/
def resolveHref (h : String) : String :=
  if leadsWith "//".toList h.toList then "https:" ++ h
  else if leadsWith "/".toList h.toList then baseUrl ++ h
  else h

/-- `extract_rfq_id_from_url`: when the marker p=ID1 occurs, take ten
characters starting two positions after the marker start when they fit,
otherwise up to the next ampersand; else the sentinel. -/
def extractRfqIdFromUrl (url : String) : String :=
  let u := url.toList
  match findSub "p=ID1".toList u with
  | none => "N/A"
  | some idx =>
    let start := idx + 2
    let endPos :=
      match findSub ['&'] (u.drop start) with
      | some k => start + k
      | none => u.length
    if start + 10 ≤ u.length then String.mk ((u.drop start).take 10)
    else String.mk ((u.drop start).take (endPos - start))

/-! ## The field extractor -/

/-- Title assignment: the cleaned anchor text, only when strictly
longer than ten characters. -/
def titleFromLink (lo : Option Anchor) (old : String) : String :=
  match lo with
  | none => old
  | some l =>
    let ti := cleanText l.text
    if 10 < ti.length then ti else old

/-- Inquiry URL assignment: the resolved href when present and non
empty (the truthiness test of the source). -/
def urlFromLink (lo : Option Anchor) (old : String) : String :=
  match lo with
  | none => old
  | some l =>
    match l.href with
    | none => old
    | some h => if h == "" then old else resolveHref h

/-- RFQ id assignment, computed from the resolved href. -/
def idFromLink (lo : Option Anchor) (old : String) : String :=
  match lo with
  | none => old
  | some l =>
    match l.href with
    | none => old
    | some h => if h == "" then old else extractRfqIdFromUrl (resolveHref h)

/-- Stage one of the extractor: title, inquiry URL and RFQ id from the
detail anchor. -/
def applyTitleUrl (lo : Option Anchor) (r : RFQRecord) : RFQRecord :=
  { r with
    title := titleFromLink lo r.title
    inquiryUrl := urlFromLink lo r.inquiryUrl
    rfqId := idFromLink lo r.rfqId }

/-- Stage two: buyer name from the container text. -/
def applyBuyerName (t : List Char) (r : RFQRecord) : RFQRecord :=
  { r with buyerName := buyerNameFrom t r.buyerName }

/-- Buyer image: the first image whose src contains the avatar size
marker or the word avatar (case insensitively) and the asset host;
protocol relative sources get an explicit scheme. -/
def imageFrom (imgs : List Img) (old : String) : String :=
  match imgs.find? (fun im =>
    (pyIn "50x50".toList im.src.toList || pyIn "avatar".toList (lowerL im.src.toList))
      && pyIn "alicdn.com".toList im.src.toList) with
  | some im => if leadsWith "//".toList im.src.toList then "https:" ++ im.src else im.src
  | none => old

/-- Stage three: buyer image. -/
def applyBuyerImage (imgs : List Img) (r : RFQRecord) : RFQRecord :=
  { r with buyerImage := imageFrom imgs r.buyerImage }

/-- Stage four: inquiry time. -/
def applyTime (t : List Char) (r : RFQRecord) : RFQRecord :=
  { r with inquiryTime := timeFrom t r.inquiryTime }

/-- Stage five: quotes left. -/
def applyQuotes (t : List Char) (r : RFQRecord) : RFQRecord :=
  { r with quotesLeft := quotesFrom t r.quotesLeft }

/-- Stage six: quantity required. -/
def applyQuantity (t : List Char) (r : RFQRecord) : RFQRecord :=
  { r with quantityRequired := quantityFrom t r.quantityRequired }

/-- Stage seven: the four substring based flags of the source.  The
fifth output column, complete order via RFQ, is never assigned by the
extractor and keeps its default. -/
def applyFlags (t : List Char) (r : RFQRecord) : RFQRecord :=
  let lo := lowerL t
  { r with
    emailConfirmed := if pyIn "email confirmed".toList lo then "Yes" else r.emailConfirmed
    typicalReplies := if pyIn "typically replies".toList lo then "Yes" else r.typicalReplies
    interactiveUser := if pyIn "interactive user".toList lo then "Yes" else r.interactiveUser
    experiencedBuyer := if pyIn "experienced buyer".toList lo then "Yes" else r.experiencedBuyer }

/-- `extract_rfq_data_improved`: defaults first, then the stages in
source order inside one exception boundary; an error of a library call
returns the record as assigned so far, all later fields staying at
their sentinels. -/
def extract (c : Container) (currentDate : String) : RFQRecord :=
  let r0 := defaultRecord currentDate
  match c.getTextR with
  | .error _ => r0
  | .ok containerText =>
    match c.findLinkR with
    | .error _ => r0
    | .ok linkOpt =>
      let t := containerText.toList
      let r2 := applyBuyerName t (applyTitleUrl linkOpt r0)
      match c.findImgsR with
      | .error _ => r2
      | .ok imgs =>
        applyFlags t (applyQuantity t (applyQuotes t (applyTime t (applyBuyerImage imgs r2))))

/-! ## Record filter and per page loop -/

/-- Denylist of promotional and navigational phrases. -/
def skipWords : List String :=
  ["buy access", "submit buying", "join free", "sign in"]

/-- First skip condition of the candidate loop: sentinel title, short
title, or an inquiry URL already seen on this page or in the run. -/
def skipBasic (r : RFQRecord) (processed seenUrls : List String) : Bool :=
  (r.title == "N/A") || decide (r.title.length < 10)
    || elemD r.inquiryUrl processed || elemD r.inquiryUrl seenUrls

/-- Second skip condition: a denylisted phrase inside the lowercased
title. -/
def skipPromo (r : RFQRecord) : Bool :=
  skipWords.any fun w => pyIn w.toList (lowerL r.title.toList)

/-- A candidate is accepted when neither skip condition fires. -/
def acceptRecord (r : RFQRecord) (processed seenUrls : List String) : Bool :=
  !(skipBasic r processed seenUrls) && !(skipPromo r)

/-- The candidate loop of `scrape_page_with_selenium`: extract each
container, skip rejected candidates, record accepted URLs in both the
page local set and the run wide seen set before appending, and stop
after twenty accepted records. -/
def pageLoop (date : String) :
    List Container → List String → List String → List RFQRecord →
      List RFQRecord × List String
  | [], _, seenUrls, acc => (acc.reverse, seenUrls)
  | c :: cs, processed, seenUrls, acc =>
    let r := extract c date
    if acceptRecord r processed seenUrls then
      if 20 ≤ (r :: acc).length then ((r :: acc).reverse, r.inquiryUrl :: seenUrls)
      else pageLoop date cs (r.inquiryUrl :: processed) (r.inquiryUrl :: seenUrls) (r :: acc)
    else pageLoop date cs processed seenUrls acc

/-- One page of scraping: the candidate loop started with an empty page
local set and an empty accumulator, returning the accepted records of
the page and the grown seen set. -/
def scrapePage (date : String) (containers : List Container) (seenUrls : List String) :
    List RFQRecord × List String :=
  pageLoop date containers [] seenUrls []

/-! ## Pagination -/

/-- Page URL scheme: page one uses the base verbatim, later pages
append a page parameter with an ampersand or question mark depending on
whether the base already has a query string. -/
def pageUrl (base : String) (page : Nat) : String :=
  if page = 1 then base
  else if elemD '?' base.toList then base ++ "&page=" ++ toString page
  else base ++ "?page=" ++ toString page

/-- Replacement text of the alternative pagination scheme. -/
def startIdxStr (page : Nat) : String :=
  "&recently=Y&startIndex=" ++ toString ((page - 1) * 20)

/-- Alternative page URL: every occurrence of the recency marker in the
base URL gets the start index suffix attached. -/
def altUrl (base : String) (page : Nat) : String :=
  String.mk (pyReplaceF "&recently=Y".toList (startIdxStr page).toList
    base.toList.length base.toList)

/-- Result of a multi page run: the accumulated records, the final seen
set, and the fetch trace listing every page fetch as page number,
fetched URL and number of accepted records. -/
structure RunResult where
  records : List RFQRecord
  seenUrls : List String
  fetchTrace : List (Nat × String × Nat)

/-- The pagination loop of `scrape_multiple_pages`: fetch the page URL;
on zero accepted records re-derive the alternative URL and, when it
differs from the fetched URL, fetch it too; when that also yields
nothing, stop; otherwise accumulate and continue with the next page.
The renderer oracle stands for the browser returning the candidate
containers of a URL. -/
def multiPageLoop (date : String) (render : String → List Container) (base : String) :
    Nat → Nat → List String → RunResult
  | 0, _, seen => ⟨[], seen, []⟩
  | fuel + 1, page, seen =>
    let url := pageUrl base page
    let pr := scrapePage date (render url) seen
    if pr.1 = [] then
      let alt := altUrl base page
      if alt = url then ⟨[], pr.2, [(page, url, 0)]⟩
      else
        let pr2 := scrapePage date (render alt) pr.2
        if pr2.1 = [] then ⟨[], pr2.2, [(page, url, 0), (page, alt, 0)]⟩
        else
          let rest := multiPageLoop date render base fuel (page + 1) pr2.2
          ⟨pr2.1 ++ rest.records, rest.seenUrls,
            (page, url, 0) :: (page, alt, pr2.1.length) :: rest.fetchTrace⟩
    else
      let rest := multiPageLoop date render base fuel (page + 1) pr.2
      ⟨pr.1 ++ rest.records, rest.seenUrls, (page, url, pr.1.length) :: rest.fetchTrace⟩

/-- `scrape_multiple_pages` over pages one to maxPages, starting from
the empty seen set of a fresh scraper. -/
def scrapeMultiplePages (date : String) (render : String → List Container)
    (base : String) (maxPages : Nat) : RunResult :=
  multiPageLoop date render base maxPages 1 []

/-! ## Container locator -/

/-- A DOM node as the locator sees it: its flattened text plus a tag
distinguishing nodes whose remaining structure differs (the equality of
the model is the structural node equality the membership test of the
source uses). -/
structure DomNode where
  tagId : Nat
  nodeText : String
deriving DecidableEq

/-- A detail link anchor together with its chain of ancestors, nearest
parent first. -/
structure AnchorChain where
  anchorNode : DomNode
  ancestors : List DomNode
deriving DecidableEq

/-- The upward widening walk of `get_rfq_containers`: climb at most the
given number of levels while the parent has more than one hundred
characters of text, keeping the last qualifying ancestor. -/
def widenContainer : DomNode → List DomNode → Nat → DomNode
  | c, _, 0 => c
  | c, [], _ + 1 => c
  | c, p :: ps, fuel + 1 =>
    if 100 < p.nodeText.length then widenContainer p ps fuel else c

/-- One step of the container collection: append the widened container
unless it is already in the list. -/
def locStep (acc : List DomNode) (l : AnchorChain) : List DomNode :=
  let c := widenContainer l.anchorNode l.ancestors 5
  if elemD c acc then acc else acc ++ [c]

/-- `get_rfq_containers`: widen every detail link anchor, append each
resulting container unless already collected, and cap the result at
fifty containers. -/
def getRfqContainers (links : List AnchorChain) : List DomNode :=
  (links.foldl locStep []).take 50

/-! ## Basic lemmas about the helpers -/

/-- Inquiry URLs of a record list, the identity keys of the run. -/
def urlsOf (l : List RFQRecord) : List String := l.map fun r => r.inquiryUrl

lemma elemD_iff {α : Type} [DecidableEq α] (a : α) (l : List α) :
    elemD a l = true ↔ a ∈ l := by
  induction l with
  | nil => simp [elemD]
  | cons b t ih => by_cases h : a = b <;> simp [elemD, h, ih]

lemma elemD_false_iff {α : Type} [DecidableEq α] (a : α) (l : List α) :
    elemD a l = false ↔ a ∉ l := by
  cases h : elemD a l <;> simp_all [← elemD_iff a l]

/-- Facts available about a candidate that passed the filter. -/
lemma accept_facts {r : RFQRecord} {ps seen : List String}
    (h : acceptRecord r ps seen = true) :
    r.title ≠ "N/A" ∧ ¬ r.title.length < 10 ∧ r.inquiryUrl ∉ seen ∧ skipPromo r = false := by
  have h' := h
  simp only [acceptRecord, Bool.and_eq_true, Bool.not_eq_true'] at h'
  obtain ⟨hb, hp⟩ := h'
  simp only [skipBasic, Bool.or_eq_false_iff, beq_eq_false_iff_ne,
    decide_eq_false_iff_not, elemD_false_iff] at hb
  exact ⟨hb.1.1.1, hb.1.1.2, hb.2, hp⟩

lemma urlsOf_reverse (l : List RFQRecord) : urlsOf l.reverse = (urlsOf l).reverse := by
  simp [urlsOf, List.map_reverse]

lemma urlsOf_cons (r : RFQRecord) (l : List RFQRecord) :
    urlsOf (r :: l) = r.inquiryUrl :: urlsOf l := rfl

/-! ## Invariants of the per page candidate loop -/

lemma pageLoop_inv (date : String) :
    ∀ (cs : List Container) (ps seen : List String) (acc : List RFQRecord),
      (∀ u ∈ urlsOf acc, u ∈ seen) → (urlsOf acc).Nodup →
      (urlsOf (pageLoop date cs ps seen acc).1).Nodup ∧
      (∀ u ∈ urlsOf (pageLoop date cs ps seen acc).1, u ∈ (pageLoop date cs ps seen acc).2) ∧
      (∀ u ∈ seen, u ∈ (pageLoop date cs ps seen acc).2) ∧
      (∀ u ∈ urlsOf (pageLoop date cs ps seen acc).1, u ∈ urlsOf acc ∨ u ∉ seen) := by
  intro cs
  induction cs with
  | nil =>
    intro ps seen acc hsub hnd
    refine ⟨?_, ?_, ?_, ?_⟩
    · show (urlsOf acc.reverse).Nodup
      rw [urlsOf_reverse, List.nodup_reverse]; exact hnd
    · intro u hu
      have hu' : u ∈ urlsOf acc.reverse := hu
      rw [urlsOf_reverse, List.mem_reverse] at hu'
      exact hsub u hu'
    · intro u hu; exact hu
    · intro u hu
      have hu' : u ∈ urlsOf acc.reverse := hu
      rw [urlsOf_reverse, List.mem_reverse] at hu'
      exact Or.inl hu'
  | cons c cs ih =>
    intro ps seen acc hsub hnd
    simp only [pageLoop]
    by_cases hacc : acceptRecord (extract c date) ps seen = true
    · rw [if_pos hacc]
      have hfacts := accept_facts hacc
      have hnotacc : (extract c date).inquiryUrl ∉ urlsOf acc := fun hmem =>
        hfacts.2.2.1 (hsub _ hmem)
      have hnd' : (urlsOf (extract c date :: acc)).Nodup := by
        rw [urlsOf_cons]; exact List.nodup_cons.mpr ⟨hnotacc, hnd⟩
      by_cases hlen : 20 ≤ (extract c date :: acc).length
      · rw [if_pos hlen]
        refine ⟨?_, ?_, ?_, ?_⟩
        · show (urlsOf (extract c date :: acc).reverse).Nodup
          rw [urlsOf_reverse, List.nodup_reverse]; exact hnd'
        · intro u hu
          have hu' : u ∈ urlsOf (extract c date :: acc).reverse := hu
          rw [urlsOf_reverse, List.mem_reverse, urlsOf_cons, List.mem_cons] at hu'
          rcases hu' with h | h
          · exact h ▸ List.mem_cons_self _ _
          · exact List.mem_cons_of_mem _ (hsub u h)
        · intro u hu; exact List.mem_cons_of_mem _ hu
        · intro u hu
          have hu' : u ∈ urlsOf (extract c date :: acc).reverse := hu
          rw [urlsOf_reverse, List.mem_reverse, urlsOf_cons, List.mem_cons] at hu'
          rcases hu' with h | h
          · exact Or.inr (h ▸ hfacts.2.2.1)
          · exact Or.inl h
      · rw [if_neg hlen]
        have hsub' : ∀ u ∈ urlsOf (extract c date :: acc),
            u ∈ (extract c date).inquiryUrl :: seen := by
          intro u hu
          rw [urlsOf_cons, List.mem_cons] at hu
          rcases hu with h | h
          · exact h ▸ List.mem_cons_self _ _
          · exact List.mem_cons_of_mem _ (hsub u h)
        obtain ⟨N, A, B, C⟩ := ih ((extract c date).inquiryUrl :: ps)
          ((extract c date).inquiryUrl :: seen) (extract c date :: acc) hsub' hnd'
        refine ⟨N, A, ?_, ?_⟩
        · intro u hu; exact B u (List.mem_cons_of_mem _ hu)
        · intro u hu
          rcases C u hu with h | h
          · rw [urlsOf_cons, List.mem_cons] at h
            rcases h with h2 | h2
            · exact Or.inr (h2 ▸ hfacts.2.2.1)
            · exact Or.inl h2
          · exact Or.inr fun hmem => h (List.mem_cons_of_mem _ hmem)
    · rw [if_neg hacc]
      exact ih ps seen acc hsub hnd

lemma scrapePage_inv (date : String) (csl : List Container) (seen : List String) :
    (urlsOf (scrapePage date csl seen).1).Nodup ∧
    (∀ u ∈ urlsOf (scrapePage date csl seen).1, u ∈ (scrapePage date csl seen).2) ∧
    (∀ u ∈ seen, u ∈ (scrapePage date csl seen).2) ∧
    (∀ u ∈ urlsOf (scrapePage date csl seen).1, u ∉ seen) := by
  obtain ⟨N, A, B, C⟩ := pageLoop_inv date csl [] seen []
    (by intro u hu; simp [urlsOf] at hu) (by simp [urlsOf])
  refine ⟨N, A, B, fun u hu => ?_⟩
  rcases C u hu with h | h
  · simp [urlsOf] at h
  · exact h

/-- Static facts about every record a page loop can emit beyond its
incoming accumulator. -/
lemma pageLoop_mem (date : String) :
    ∀ (cs : List Container) (ps seen : List String) (acc : List RFQRecord) (r : RFQRecord),
      r ∈ (pageLoop date cs ps seen acc).1 →
      r ∈ acc ∨ (r.title ≠ "N/A" ∧ ¬ r.title.length < 10 ∧ skipPromo r = false) := by
  intro cs
  induction cs with
  | nil =>
    intro ps seen acc r hr
    have hr' : r ∈ acc.reverse := hr
    exact Or.inl (List.mem_reverse.mp hr')
  | cons c cs ih =>
    intro ps seen acc r hr
    simp only [pageLoop] at hr
    by_cases hacc : acceptRecord (extract c date) ps seen = true
    · rw [if_pos hacc] at hr
      have hfacts := accept_facts hacc
      by_cases hlen : 20 ≤ (extract c date :: acc).length
      · rw [if_pos hlen] at hr
        have hr' : r ∈ (extract c date :: acc).reverse := hr
        rcases List.mem_cons.mp (List.mem_reverse.mp hr') with h | h
        · exact Or.inr (h ▸ ⟨hfacts.1, hfacts.2.1, hfacts.2.2.2⟩)
        · exact Or.inl h
      · rw [if_neg hlen] at hr
        rcases ih _ _ _ _ hr with h | h
        · rcases List.mem_cons.mp h with h2 | h2
          · exact Or.inr (h2 ▸ ⟨hfacts.1, hfacts.2.1, hfacts.2.2.2⟩)
          · exact Or.inl h2
        · exact Or.inr h
    · rw [if_neg hacc] at hr
      exact ih _ _ _ _ hr

lemma scrapePage_mem (date : String) (csl : List Container) (seen : List String)
    (r : RFQRecord) (hr : r ∈ (scrapePage date csl seen).1) :
    r.title ≠ "N/A" ∧ ¬ r.title.length < 10 ∧ skipPromo r = false := by
  rcases pageLoop_mem date csl [] seen [] r hr with h | h
  · simp at h
  · exact h

/-! ## Invariants of the pagination loop -/

lemma multiPage_inv (date : String) (render : String → List Container) (base : String) :
    ∀ (fuel page : Nat) (seen : List String),
      (urlsOf (multiPageLoop date render base fuel page seen).records).Nodup ∧
      (∀ u ∈ urlsOf (multiPageLoop date render base fuel page seen).records,
        u ∈ (multiPageLoop date render base fuel page seen).seenUrls ∧ u ∉ seen) ∧
      (∀ u ∈ seen, u ∈ (multiPageLoop date render base fuel page seen).seenUrls) := by
  intro fuel
  induction fuel with
  | zero =>
    intro page seen
    refine ⟨List.nodup_nil, ?_, ?_⟩
    · intro u hu; exact absurd hu (List.not_mem_nil u)
    · intro u hu; exact hu
  | succ f ih =>
    intro page seen
    simp only [multiPageLoop]
    set url := pageUrl base page with hurl
    set pr := scrapePage date (render url) seen with hpr
    obtain ⟨N1, A1, B1, C1⟩ := scrapePage_inv date (render url) seen
    by_cases hpd : pr.1 = []
    · rw [if_pos hpd]
      set alt := altUrl base page with halt
      by_cases heq : alt = url
      · rw [if_pos heq]
        exact ⟨List.nodup_nil, fun u hu => absurd hu (List.not_mem_nil u), B1⟩
      · rw [if_neg heq]
        set pr2 := scrapePage date (render alt) pr.2 with hpr2
        obtain ⟨N2, A2, B2, C2⟩ := scrapePage_inv date (render alt) pr.2
        by_cases hpd2 : pr2.1 = []
        · rw [if_pos hpd2]
          exact ⟨List.nodup_nil, fun u hu => absurd hu (List.not_mem_nil u),
            fun u hu => B2 u (B1 u hu)⟩
        · rw [if_neg hpd2]
          obtain ⟨NR, AR, BR⟩ := ih (page + 1) pr2.2
          refine ⟨?_, ?_, ?_⟩
          · show (urlsOf (pr2.1 ++ _)).Nodup
            rw [urlsOf, List.map_append, List.nodup_append]
            refine ⟨N2, NR, ?_⟩
            intro u hu hu'
            exact (AR u hu').2 (A2 u hu)
          · intro u hu
            rw [urlsOf, List.map_append, List.mem_append] at hu
            rcases hu with h | h
            · exact ⟨BR u (A2 u h), fun hs => C2 u h (B1 u hs)⟩
            · exact ⟨(AR u h).1, fun hs => (AR u h).2 (B2 u (B1 u hs))⟩
          · intro u hu; exact BR u (B2 u (B1 u hu))
    · rw [if_neg hpd]
      obtain ⟨NR, AR, BR⟩ := ih (page + 1) pr.2
      refine ⟨?_, ?_, ?_⟩
      · show (urlsOf (pr.1 ++ _)).Nodup
        rw [urlsOf, List.map_append, List.nodup_append]
        refine ⟨N1, NR, ?_⟩
        intro u hu hu'
        exact (AR u hu').2 (A1 u hu)
      · intro u hu
        rw [urlsOf, List.map_append, List.mem_append] at hu
        rcases hu with h | h
        · exact ⟨BR u (A1 u h), C1 u h⟩
        · exact ⟨(AR u h).1, fun hs => (AR u h).2 (B1 u hs)⟩
      · intro u hu; exact BR u (B1 u hu)

/-- Every trace entry of the loop started at some page carries at
least that page number. -/
lemma trace_page_lb (date : String) (render : String → List Container) (base : String) :
    ∀ (fuel page : Nat) (seen : List String) (q : Nat) (u : String) (n : Nat),
      (q, u, n) ∈ (multiPageLoop date render base fuel page seen).fetchTrace → page ≤ q := by
  intro fuel
  induction fuel with
  | zero =>
    intro page seen q u n h
    exact absurd h (List.not_mem_nil _)
  | succ f ih =>
    intro page seen q u n h
    simp only [multiPageLoop] at h
    set pr := scrapePage date (render (pageUrl base page)) seen with hprd
    by_cases hpd : pr.1 = []
    · rw [if_pos hpd] at h
      by_cases heq : altUrl base page = pageUrl base page
      · rw [if_pos heq] at h
        have h1 := List.mem_singleton.mp h
        simp only [Prod.mk.injEq] at h1
        omega
      · rw [if_neg heq] at h
        set pr2 := scrapePage date (render (altUrl base page)) pr.2 with hpr2d
        by_cases hpd2 : pr2.1 = []
        · rw [if_pos hpd2] at h
          rcases List.mem_cons.mp h with h1 | h1
          · simp only [Prod.mk.injEq] at h1; omega
          · have h2 := List.mem_singleton.mp h1
            simp only [Prod.mk.injEq] at h2; omega
        · rw [if_neg hpd2] at h
          rcases List.mem_cons.mp h with h1 | h1
          · simp only [Prod.mk.injEq] at h1; omega
          · rcases List.mem_cons.mp h1 with h2 | h2
            · simp only [Prod.mk.injEq] at h2; omega
            · have := ih (page + 1) pr2.2 q u n h2; omega
    · rw [if_neg hpd] at h
      rcases List.mem_cons.mp h with h1 | h1
      · simp only [Prod.mk.injEq] at h1; omega
      · have := ih (page + 1) pr.2 q u n h1; omega

/-- Whenever an entry at or beyond q appears in the trace, page q was
itself fetched with its primary URL. -/
lemma trace_processed (date : String) (render : String → List Container) (base : String) :
    ∀ (fuel page : Nat) (seen : List String) (q q0 : Nat) (u : String) (n : Nat),
      (q0, u, n) ∈ (multiPageLoop date render base fuel page seen).fetchTrace →
      page ≤ q → q ≤ q0 →
      ∃ m, (q, pageUrl base q, m) ∈ (multiPageLoop date render base fuel page seen).fetchTrace := by
  intro fuel
  induction fuel with
  | zero =>
    intro page seen q q0 u n h
    exact absurd h (List.not_mem_nil _)
  | succ f ih =>
    intro page seen q q0 u n h hpq hq0
    rcases Nat.eq_or_lt_of_le hpq with hq | hq
    · rw [← hq]
      simp only [multiPageLoop]
      set pr := scrapePage date (render (pageUrl base page)) seen with hprd
      by_cases hpd : pr.1 = []
      · rw [if_pos hpd]
        by_cases heq : altUrl base page = pageUrl base page
        · rw [if_pos heq]; exact ⟨0, List.mem_singleton.mpr rfl⟩
        · rw [if_neg heq]
          set pr2 := scrapePage date (render (altUrl base page)) pr.2 with hpr2d
          by_cases hpd2 : pr2.1 = []
          · rw [if_pos hpd2]; exact ⟨0, List.mem_cons_self _ _⟩
          · rw [if_neg hpd2]; exact ⟨0, List.mem_cons_self _ _⟩
      · rw [if_neg hpd]
        exact ⟨pr.1.length, List.mem_cons_self _ _⟩
    · simp only [multiPageLoop] at h ⊢
      set pr := scrapePage date (render (pageUrl base page)) seen with hprd
      by_cases hpd : pr.1 = []
      · rw [if_pos hpd] at h ⊢
        by_cases heq : altUrl base page = pageUrl base page
        · rw [if_pos heq] at h
          have h1 := List.mem_singleton.mp h
          simp only [Prod.mk.injEq] at h1
          omega
        · rw [if_neg heq] at h ⊢
          set pr2 := scrapePage date (render (altUrl base page)) pr.2 with hpr2d
          by_cases hpd2 : pr2.1 = []
          · rw [if_pos hpd2] at h
            rcases List.mem_cons.mp h with h1 | h1
            · simp only [Prod.mk.injEq] at h1; omega
            · have h2 := List.mem_singleton.mp h1
              simp only [Prod.mk.injEq] at h2; omega
          · rw [if_neg hpd2] at h ⊢
            rcases List.mem_cons.mp h with h1 | h1
            · simp only [Prod.mk.injEq] at h1; omega
            · rcases List.mem_cons.mp h1 with h2 | h2
              · simp only [Prod.mk.injEq] at h2; omega
              · obtain ⟨m, hm⟩ := ih (page + 1) pr2.2 q q0 u n h2 hq hq0
                exact ⟨m, List.mem_cons_of_mem _ (List.mem_cons_of_mem _ hm)⟩
      · rw [if_neg hpd] at h ⊢
        rcases List.mem_cons.mp h with h1 | h1
        · simp only [Prod.mk.injEq] at h1; omega
        · obtain ⟨m, hm⟩ := ih (page + 1) pr.2 q q0 u n h1 hq hq0
          exact ⟨m, List.mem_cons_of_mem _ hm⟩

/-- When the trace shows page p fetched with zero yield and its
alternative also at zero (or coinciding with the page URL), every trace
entry stays at or below p. -/
lemma trace_stop (date : String) (render : String → List Container) (base : String) (p : Nat) :
    ∀ (fuel page : Nat) (seen : List String),
      page ≤ p →
      (p, pageUrl base p, 0) ∈ (multiPageLoop date render base fuel page seen).fetchTrace →
      (altUrl base p = pageUrl base p ∨
        (p, altUrl base p, 0) ∈ (multiPageLoop date render base fuel page seen).fetchTrace) →
      ∀ (q : Nat) (u : String) (n : Nat),
        (q, u, n) ∈ (multiPageLoop date render base fuel page seen).fetchTrace → q ≤ p := by
  intro fuel
  induction fuel with
  | zero =>
    intro page seen _ hp
    exact absurd hp (List.not_mem_nil _)
  | succ f ih =>
    intro page seen hpage hp halt q u n hq
    simp only [multiPageLoop] at hp halt hq
    set pr := scrapePage date (render (pageUrl base page)) seen with hprd
    by_cases hpd : pr.1 = []
    · rw [if_pos hpd] at hp halt hq
      by_cases heq : altUrl base page = pageUrl base page
      · rw [if_pos heq] at hq
        have h1 := List.mem_singleton.mp hq
        simp only [Prod.mk.injEq] at h1
        omega
      · rw [if_neg heq] at hp halt hq
        set pr2 := scrapePage date (render (altUrl base page)) pr.2 with hpr2d
        by_cases hpd2 : pr2.1 = []
        · rw [if_pos hpd2] at hq
          rcases List.mem_cons.mp hq with h1 | h1
          · simp only [Prod.mk.injEq] at h1; omega
          · have h2 := List.mem_singleton.mp h1
            simp only [Prod.mk.injEq] at h2; omega
        · rw [if_neg hpd2] at hp halt hq
          -- continuing branch: the alternative fetch yielded records
          have hplt : page + 1 ≤ p ∨ page = p := by
            rcases List.mem_cons.mp hp with h1 | h1
            · simp only [Prod.mk.injEq] at h1
              omega
            · rcases List.mem_cons.mp h1 with h2 | h2
              · simp only [Prod.mk.injEq] at h2
                exact absurd (List.length_eq_zero.mp h2.2.2.symm) hpd2
              · exact Or.inl (trace_page_lb date render base f (page + 1) pr2.2 p _ _ h2)
          rcases hplt with hlt | hpe
          · have hp' : (p, pageUrl base p, 0) ∈
                (multiPageLoop date render base f (page + 1) pr2.2).fetchTrace := by
              rcases List.mem_cons.mp hp with h1 | h1
              · simp only [Prod.mk.injEq] at h1; omega
              · rcases List.mem_cons.mp h1 with h2 | h2
                · simp only [Prod.mk.injEq] at h2; omega
                · exact h2
            have halt' : altUrl base p = pageUrl base p ∨
                (p, altUrl base p, 0) ∈
                  (multiPageLoop date render base f (page + 1) pr2.2).fetchTrace := by
              rcases halt with h1 | h1
              · exact Or.inl h1
              · rcases List.mem_cons.mp h1 with h2 | h2
                · simp only [Prod.mk.injEq] at h2; omega
                · rcases List.mem_cons.mp h2 with h3 | h3
                  · simp only [Prod.mk.injEq] at h3; omega
                  · exact Or.inr h3
            rcases List.mem_cons.mp hq with h1 | h1
            · simp only [Prod.mk.injEq] at h1; omega
            · rcases List.mem_cons.mp h1 with h2 | h2
              · simp only [Prod.mk.injEq] at h2; omega
              · exact ih (page + 1) pr2.2 hlt hp' halt' q u n h2
          · -- page = p is impossible here: the alternative yielded records
            exfalso
            subst hpe
            rcases halt with h1 | h1
            · exact heq h1
            · rcases List.mem_cons.mp h1 with h2 | h2
              · simp only [Prod.mk.injEq] at h2
                exact heq h2.2.1
              · rcases List.mem_cons.mp h2 with h3 | h3
                · simp only [Prod.mk.injEq] at h3
                  exact hpd2 (List.length_eq_zero.mp h3.2.2.symm)
                · have := trace_page_lb date render base f (page + 1) pr2.2 page _ _ h3
                  omega
    · rw [if_neg hpd] at hp halt hq
      have hplt : page + 1 ≤ p := by
        rcases List.mem_cons.mp hp with h1 | h1
        · simp only [Prod.mk.injEq] at h1
          exact absurd (List.length_eq_zero.mp h1.2.2.symm) hpd
        · exact trace_page_lb date render base f (page + 1) pr.2 p _ _ h1
      have hp' : (p, pageUrl base p, 0) ∈
          (multiPageLoop date render base f (page + 1) pr.2).fetchTrace := by
        rcases List.mem_cons.mp hp with h1 | h1
        · simp only [Prod.mk.injEq] at h1
          exact absurd (List.length_eq_zero.mp h1.2.2.symm) hpd
        · exact h1
      have halt' : altUrl base p = pageUrl base p ∨
          (p, altUrl base p, 0) ∈
            (multiPageLoop date render base f (page + 1) pr.2).fetchTrace := by
        rcases halt with h1 | h1
        · exact Or.inl h1
        · rcases List.mem_cons.mp h1 with h2 | h2
          · simp only [Prod.mk.injEq] at h2; omega
          · exact Or.inr h2
      rcases List.mem_cons.mp hq with h1 | h1
      · simp only [Prod.mk.injEq] at h1; omega
      · exact ih (page + 1) pr.2 hplt hp' halt' q u n h1

/-! ## Lemmas about the container locator -/

lemma locStep_nodup (acc : List DomNode) (l : AnchorChain) (h : acc.Nodup) :
    (locStep acc l).Nodup := by
  unfold locStep
  by_cases hc : elemD (widenContainer l.anchorNode l.ancestors 5) acc = true
  · rw [if_pos hc]; exact h
  · rw [if_neg hc]
    refine List.Nodup.append h (List.nodup_singleton _) ?_
    intro x hx hx2
    rw [List.mem_singleton] at hx2
    subst hx2
    exact hc ((elemD_iff _ _).mpr hx)

lemma locFold_nodup (ls : List AnchorChain) :
    ∀ acc : List DomNode, acc.Nodup → (ls.foldl locStep acc).Nodup := by
  induction ls with
  | nil => intro acc h; exact h
  | cons l ls ih =>
    intro acc h
    rw [List.foldl_cons]
    exact ih (locStep acc l) (locStep_nodup acc l h)

/-! ## Concrete run data used by the scenario claim and witnesses -/

/-- Container text of the scenario of the specification. -/
def scTxt : String :=
  "Posted 3 hours ago... Quotes Left 5... Quantity Required: 200 Pieces... Email Confirmed"

/-- Detail anchor of the scenario. -/
def scAnchor : Anchor :=
  { text := "Need 200 pieces of packaging film"
    href := some "/rfq/rfq_detail.htm?p=ID1234567890" }

/-- The scenario container. -/
def cScenario : Container :=
  { getTextR := .ok scTxt, findLinkR := .ok (some scAnchor), findImgsR := .ok [] }

/-! ## Projection lemmas for the extractor -/

lemma extract_getTextErr (u : Unit) (f : Except Unit (Option Anchor))
    (i : Except Unit (List Img)) (d : String) :
    extract ⟨.error u, f, i⟩ d = defaultRecord d := rfl

lemma extract_linkErr (t : String) (u : Unit) (i : Except Unit (List Img)) (d : String) :
    extract ⟨.ok t, .error u, i⟩ d = defaultRecord d := rfl

lemma extract_ok_emailConfirmed (t d : String) (lo : Option Anchor) (imgs : List Img) :
    (extract ⟨.ok t, .ok lo, .ok imgs⟩ d).emailConfirmed =
      if pyIn "email confirmed".toList (lowerL t.toList) then "Yes" else "No" := rfl

lemma extract_ok_typicalReplies (t d : String) (lo : Option Anchor) (imgs : List Img) :
    (extract ⟨.ok t, .ok lo, .ok imgs⟩ d).typicalReplies =
      if pyIn "typically replies".toList (lowerL t.toList) then "Yes" else "No" := rfl

lemma extract_ok_interactiveUser (t d : String) (lo : Option Anchor) (imgs : List Img) :
    (extract ⟨.ok t, .ok lo, .ok imgs⟩ d).interactiveUser =
      if pyIn "interactive user".toList (lowerL t.toList) then "Yes" else "No" := rfl

lemma extract_ok_experiencedBuyer (t d : String) (lo : Option Anchor) (imgs : List Img) :
    (extract ⟨.ok t, .ok lo, .ok imgs⟩ d).experiencedBuyer =
      if pyIn "experienced buyer".toList (lowerL t.toList) then "Yes" else "No" := rfl

/-! ## Shape predicates for the amended totality claim -/

/-- A flag column value. -/
def flagLike (s : String) : Prop := s = "Yes" ∨ s = "No"

/-- Every record the extractor returns is fully populated: the five
flag columns hold Yes or No, the country is the configured constant,
both date columns carry the run date, and the title is either the
sentinel or a cleaned string longer than ten characters. -/
def recordShapeOk (r : RFQRecord) (d : String) : Prop :=
  flagLike r.emailConfirmed ∧ flagLike r.experiencedBuyer ∧
  flagLike r.completeOrderViaRFQ ∧ flagLike r.typicalReplies ∧
  flagLike r.interactiveUser ∧
  r.country = "United Arab Emirates" ∧ r.inquiryDate = d ∧ r.scrapingDate = d ∧
  (r.title = "N/A" ∨ 10 < r.title.length)

/-- The fields assigned after the image lookup are all still at their
sentinels. -/
def laterFieldsDefault (r : RFQRecord) : Prop :=
  r.buyerImage = "N/A" ∧ r.inquiryTime = "N/A" ∧ r.quotesLeft = "N/A" ∧
  r.quantityRequired = "N/A" ∧ r.emailConfirmed = "No" ∧ r.experiencedBuyer = "No" ∧
  r.completeOrderViaRFQ = "No" ∧ r.typicalReplies = "No" ∧ r.interactiveUser = "No"

lemma flagLike_ite (b : Bool) : flagLike (if b then "Yes" else "No") := by
  cases b
  · exact Or.inr rfl
  · exact Or.inl rfl

lemma titleFromLink_shape (lo : Option Anchor) :
    titleFromLink lo "N/A" = "N/A" ∨ 10 < (titleFromLink lo "N/A").length := by
  cases lo with
  | none => exact Or.inl rfl
  | some a =>
    show (if 10 < (cleanText a.text).length then cleanText a.text else "N/A") = "N/A" ∨
      10 < (if 10 < (cleanText a.text).length then cleanText a.text else "N/A").length
    by_cases h : 10 < (cleanText a.text).length
    · rw [if_pos h]; exact Or.inr h
    · rw [if_neg h]; exact Or.inl rfl

lemma defaultRecord_shape (d : String) : recordShapeOk (defaultRecord d) d :=
  ⟨Or.inr rfl, Or.inr rfl, Or.inr rfl, Or.inr rfl, Or.inr rfl, rfl, rfl, rfl, Or.inl rfl⟩

lemma defaultRecord_later (d : String) : laterFieldsDefault (defaultRecord d) :=
  ⟨rfl, rfl, rfl, rfl, rfl, rfl, rfl, rfl, rfl⟩

/-! ## Claim theorems -/

/-- Claim C1: in every run, no two records accepted into the
accumulated result list share the same inquiry URL, whether the
duplicate candidate appears on the same page or on a later page. -/
theorem claim1_unique_urls (date : String) (render : String → List Container)
    (base : String) (maxPages : Nat) :
    (urlsOf (scrapeMultiplePages date render base maxPages).records).Nodup :=
  (multiPage_inv date render base maxPages 1 []).1

/-- Claim C4: the specification scenario container yields the expected
record: relative time, quotes left, a quantity text containing the
quantity and unit, the confirmed email flag, the anchor title, an
absolute inquiry URL, and an id taken from the p=ID part of the URL. -/
theorem claim4_scenario :
    (extract cScenario "19-07-2025").inquiryTime = "3 hours ago" ∧
    (extract cScenario "19-07-2025").quotesLeft = "5" ∧
    pyIn "200 Pieces".toList (extract cScenario "19-07-2025").quantityRequired.toList = true ∧
    (extract cScenario "19-07-2025").emailConfirmed = "Yes" ∧
    (extract cScenario "19-07-2025").title = "Need 200 pieces of packaging film" ∧
    (extract cScenario "19-07-2025").inquiryUrl =
      "https://sourcing.alibaba.com/rfq/rfq_detail.htm?p=ID1234567890" ∧
    leadsWith "https://".toList (extract cScenario "19-07-2025").inquiryUrl.toList = true ∧
    (extract cScenario "19-07-2025").rfqId = "ID12345678" ∧
    leadsWith (extract cScenario "19-07-2025").rfqId.toList "ID1234567890".toList = true := by
  decide

/-- Claim C9: the locator returns at most fifty containers and its
result has no duplicates; in particular a container appears exactly
once even when several anchors widen to it. -/
theorem claim9_containers (links : List AnchorChain) :
    (getRfqContainers links).length ≤ 50 ∧
    (getRfqContainers links).Nodup ∧
    ∀ c ∈ getRfqContainers links, (getRfqContainers links).count c = 1 := by
  have hnd : (getRfqContainers links).Nodup :=
    List.Nodup.sublist (List.take_sublist 50 _) (locFold_nodup links [] List.nodup_nil)
  refine ⟨?_, hnd, ?_⟩
  · exact List.length_take_le 50 _
  · intro c hc
    exact List.count_eq_one_of_mem hnd hc

/-- Claim C9 witness: two anchors widening to one ancestor give a
single container. -/
theorem claim9_witness :
    (getRfqContainers
      [⟨⟨1, "a"⟩, [⟨10, String.mk (List.replicate 120 'x')⟩]⟩,
       ⟨⟨2, "b"⟩, [⟨10, String.mk (List.replicate 120 'x')⟩]⟩]).length ≤ 50 ∧
    (getRfqContainers
      [⟨⟨1, "a"⟩, [⟨10, String.mk (List.replicate 120 'x')⟩]⟩,
       ⟨⟨2, "b"⟩, [⟨10, String.mk (List.replicate 120 'x')⟩]⟩]).Nodup ∧
    (getRfqContainers
      [⟨⟨1, "a"⟩, [⟨10, String.mk (List.replicate 120 'x')⟩]⟩,
       ⟨⟨2, "b"⟩, [⟨10, String.mk (List.replicate 120 'x')⟩]⟩]).count
        ⟨10, String.mk (List.replicate 120 'x')⟩ = 1 := by
  have h := claim9_containers
    [⟨⟨1, "a"⟩, [⟨10, String.mk (List.replicate 120 'x')⟩]⟩,
     ⟨⟨2, "b"⟩, [⟨10, String.mk (List.replicate 120 'x')⟩]⟩]
  exact ⟨h.1, h.2.1, h.2.2 _ (by decide)⟩

/-- Container whose text parses to a time but whose image lookup
raises. -/
def cTimeImgsErr : Container :=
  { getTextR := .ok "Posted 3 hours ago", findLinkR := .ok none, findImgsR := .error () }

/-- The same container with a healthy image lookup. -/
def cTimeImgsOk : Container :=
  { getTextR := .ok "Posted 3 hours ago", findLinkR := .ok none, findImgsR := .ok [] }

/-- Claim C2 counterexample: an internal error in the image sub-field
does not leave only that field at its sentinel: the inquiry time, a
remaining field whose data is present in the text, also stays at the
sentinel because extraction does not continue past the failure. -/
theorem claim2_counterexample :
    (extract cTimeImgsErr "19-07-2025").inquiryTime = "N/A" ∧
    (extract cTimeImgsOk "19-07-2025").inquiryTime = "3 hours ago" := by
  decide

/-- Claim C2 (amended): extraction is total and every record is fully
populated with parsed values or sentinels; but an internal error stops
extraction where it occurs: a failing text read returns the all
sentinel record, and a failing image lookup leaves the image, time,
quotes, quantity and every flag at their sentinels. -/
theorem claim2_total_halting (c : Container) (d : String) :
    recordShapeOk (extract c d) d ∧
    (c.getTextR = .error () → extract c d = defaultRecord d) ∧
    (c.findImgsR = .error () → laterFieldsDefault (extract c d)) := by
  obtain ⟨g, f, i⟩ := c
  cases g with
  | error u =>
    refine ⟨?_, fun _ => rfl, fun _ => ?_⟩
    · rw [extract_getTextErr]; exact defaultRecord_shape d
    · rw [extract_getTextErr]; exact defaultRecord_later d
  | ok t =>
    cases f with
    | error u =>
      refine ⟨?_, fun h => Except.noConfusion h, fun _ => ?_⟩
      · rw [extract_linkErr]; exact defaultRecord_shape d
      · rw [extract_linkErr]; exact defaultRecord_later d
    | ok lo =>
      cases i with
      | error u =>
        refine ⟨?_, fun h => Except.noConfusion h, fun _ => ?_⟩
        · exact ⟨Or.inr rfl, Or.inr rfl, Or.inr rfl, Or.inr rfl, Or.inr rfl,
            rfl, rfl, rfl, titleFromLink_shape lo⟩
        · exact ⟨rfl, rfl, rfl, rfl, rfl, rfl, rfl, rfl, rfl⟩
      | ok imgs =>
        refine ⟨?_, fun h => Except.noConfusion h, fun h => Except.noConfusion h⟩
        refine ⟨?_, ?_, Or.inr rfl, ?_, ?_, rfl, rfl, rfl, titleFromLink_shape lo⟩
        · rw [extract_ok_emailConfirmed]; exact flagLike_ite _
        · rw [extract_ok_experiencedBuyer]; exact flagLike_ite _
        · rw [extract_ok_typicalReplies]; exact flagLike_ite _
        · rw [extract_ok_interactiveUser]; exact flagLike_ite _

/-- Claim C2 witness: a container failing on every library call still
yields the fully populated sentinel record. -/
theorem claim2_witness :
    recordShapeOk (extract ⟨.error (), .error (), .error ()⟩ "01-01-2025") "01-01-2025" ∧
    extract ⟨.error (), .error (), .error ()⟩ "01-01-2025" = defaultRecord "01-01-2025" ∧
    laterFieldsDefault (extract ⟨.error (), .error (), .error ()⟩ "01-01-2025") := by
  have h := claim2_total_halting ⟨.error (), .error (), .error ()⟩ "01-01-2025"
  exact ⟨h.1, h.2.1 rfl, h.2.2 rfl⟩

/-- Container carrying the phrase of the fifth flag. -/
def cFifthFlag : Container :=
  { getTextR := .ok "Complete Order via RFQ supported"
    findLinkR := .ok none, findImgsR := .ok [] }

/-- Claim C3 counterexample: the phrase of the complete order flag is
present in the flattened text, yet the extracted record keeps that flag
at No — the extractor never assigns this flag, so the five flag
biconditional of the claim fails. -/
theorem claim3_counterexample :
    pyIn "complete order via rfq".toList
      (lowerL "Complete Order via RFQ supported".toList) = true ∧
    (extract cFifthFlag "19-07-2025").completeOrderViaRFQ = "No" := by
  decide

/-- Claim C3 (amended): for containers whose library calls succeed,
each of the four implemented flags is Yes exactly when its phrase
occurs case insensitively in the flattened text; the fifth flag,
complete order via RFQ, is always No. -/
theorem claim3_flags (c : Container) (d t : String) (lo : Option Anchor) (imgs : List Img)
    (h1 : c.getTextR = .ok t) (h2 : c.findLinkR = .ok lo) (h3 : c.findImgsR = .ok imgs) :
    ((extract c d).emailConfirmed = "Yes" ↔
      pyIn "email confirmed".toList (lowerL t.toList) = true) ∧
    ((extract c d).typicalReplies = "Yes" ↔
      pyIn "typically replies".toList (lowerL t.toList) = true) ∧
    ((extract c d).interactiveUser = "Yes" ↔
      pyIn "interactive user".toList (lowerL t.toList) = true) ∧
    ((extract c d).experiencedBuyer = "Yes" ↔
      pyIn "experienced buyer".toList (lowerL t.toList) = true) ∧
    (extract c d).completeOrderViaRFQ = "No" := by
  obtain ⟨g, f, i⟩ := c
  replace h1 : g = Except.ok t := h1
  replace h2 : f = Except.ok lo := h2
  replace h3 : i = Except.ok imgs := h3
  subst h1; subst h2; subst h3
  refine ⟨?_, ?_, ?_, ?_, rfl⟩
  · rw [extract_ok_emailConfirmed]
    cases hb : pyIn "email confirmed".toList (lowerL t.toList) <;> decide
  · rw [extract_ok_typicalReplies]
    cases hb : pyIn "typically replies".toList (lowerL t.toList) <;> decide
  · rw [extract_ok_interactiveUser]
    cases hb : pyIn "interactive user".toList (lowerL t.toList) <;> decide
  · rw [extract_ok_experiencedBuyer]
    cases hb : pyIn "experienced buyer".toList (lowerL t.toList) <;> decide

/-- Flag witness container. -/
def cFlagsW : Container :=
  { getTextR := .ok "Email Confirmed and typically replies fast"
    findLinkR := .ok none, findImgsR := .ok [] }

/-- Claim C3 witness: the amended flag behaviour at a concrete
container. -/
theorem claim3_witness :
    cFlagsW.getTextR = .ok "Email Confirmed and typically replies fast" ∧
    cFlagsW.findLinkR = .ok none ∧
    cFlagsW.findImgsR = .ok [] ∧
    (((extract cFlagsW "01-01-2025").emailConfirmed = "Yes" ↔
        pyIn "email confirmed".toList
          (lowerL "Email Confirmed and typically replies fast".toList) = true) ∧
      ((extract cFlagsW "01-01-2025").typicalReplies = "Yes" ↔
        pyIn "typically replies".toList
          (lowerL "Email Confirmed and typically replies fast".toList) = true) ∧
      ((extract cFlagsW "01-01-2025").interactiveUser = "Yes" ↔
        pyIn "interactive user".toList
          (lowerL "Email Confirmed and typically replies fast".toList) = true) ∧
      ((extract cFlagsW "01-01-2025").experiencedBuyer = "Yes" ↔
        pyIn "experienced buyer".toList
          (lowerL "Email Confirmed and typically replies fast".toList) = true) ∧
      (extract cFlagsW "01-01-2025").completeOrderViaRFQ = "No") := by
  refine ⟨rfl, rfl, rfl, ?_⟩
  exact claim3_flags cFlagsW "01-01-2025"
    "Email Confirmed and typically replies fast" none [] rfl rfl rfl

lemma titleFromLink_min (a : Anchor) (h10 : (cleanText a.text).length = 10) :
    titleFromLink (some a) "N/A" = "N/A" := by
  show (if 10 < (cleanText a.text).length then cleanText a.text else "N/A") = "N/A"
  rw [h10]
  exact if_neg (by omega)

/-- Claim C10: a detail anchor whose cleaned title has length exactly
ten leaves the title at the sentinel (the extractor requires length
strictly greater than ten), so the candidate is rejected by the filter
even though the rejection test of the filter alone (length below ten)
would admit it. -/
theorem claim10_title_boundary (c : Container) (d t : String) (a : Anchor)
    (h1 : c.getTextR = .ok t) (h2 : c.findLinkR = .ok (some a))
    (h10 : (cleanText a.text).length = 10) :
    (extract c d).title = "N/A" ∧
    ¬ (cleanText a.text).length < 10 ∧
    ∀ ps seen : List String, acceptRecord (extract c d) ps seen = false := by
  obtain ⟨g, f, i⟩ := c
  replace h1 : g = Except.ok t := h1
  replace h2 : f = Except.ok (some a) := h2
  subst h1; subst h2
  have htitle : (extract ⟨Except.ok t, Except.ok (some a), i⟩ d).title = "N/A" := by
    cases i with
    | error u => exact titleFromLink_min a h10
    | ok imgs => exact titleFromLink_min a h10
  refine ⟨htitle, by omega, ?_⟩
  intro ps seen
  unfold acceptRecord skipBasic
  rw [htitle]
  simp

/-- Claim C10 witness container: a cleaned anchor title of exactly ten
characters. -/
def cTenW : Container :=
  { getTextR := .ok ""
    findLinkR := .ok (some ⟨"HelloWorld", some "/rfq/rfq_detail.htm?p=ID1"⟩)
    findImgsR := .ok [] }

/-- Claim C10 witness. -/
theorem claim10_witness :
    cTenW.getTextR = .ok "" ∧
    cTenW.findLinkR = .ok (some ⟨"HelloWorld", some "/rfq/rfq_detail.htm?p=ID1"⟩) ∧
    (cleanText "HelloWorld").length = 10 ∧
    ((extract cTenW "01-01-2025").title = "N/A" ∧
      ¬ (cleanText "HelloWorld").length < 10 ∧
      ∀ ps seen : List String, acceptRecord (extract cTenW "01-01-2025") ps seen = false) := by
  refine ⟨rfl, rfl, by decide, ?_⟩
  exact claim10_title_boundary cTenW "01-01-2025" ""
    ⟨"HelloWorld", some "/rfq/rfq_detail.htm?p=ID1"⟩ rfl rfl (by decide)

/-- Claim C5: when the trace of a run records page p fetched with zero
accepted records and its alternative URL also at zero (or coinciding
with the page URL), then pages one to p were all fetched and no entry
of the trace goes beyond page p, regardless of the page budget. -/
theorem claim5_pagination_stop (date : String) (render : String → List Container)
    (base : String) (maxPages p : Nat)
    (hp1 : 1 ≤ p) (hpm : p < maxPages)
    (hzero : (p, pageUrl base p, 0) ∈ (scrapeMultiplePages date render base maxPages).fetchTrace)
    (halt : altUrl base p = pageUrl base p ∨
      (p, altUrl base p, 0) ∈ (scrapeMultiplePages date render base maxPages).fetchTrace) :
    (∀ q, 1 ≤ q → q ≤ p → ∃ m,
      (q, pageUrl base q, m) ∈ (scrapeMultiplePages date render base maxPages).fetchTrace) ∧
    (∀ q u n, (q, u, n) ∈ (scrapeMultiplePages date render base maxPages).fetchTrace → q ≤ p) := by
  constructor
  · intro q hq1 hqp
    exact trace_processed date render base maxPages 1 [] q p _ _ hzero hq1 hqp
  · intro q u n h
    exact trace_stop date render base p maxPages 1 [] hp1 hzero halt q u n h

/-- Base URL with the recency marker for the pagination witness. -/
def wBase5 : String := "https://s.example/list?a=1&recently=Y"

/-- Renderer yielding the scenario container only on the base URL. -/
def wRender5 : String → List Container := fun u => if u = wBase5 then [cScenario] else []

/-- Claim C5 witness: a run whose second page and its alternative both
yield zero accepted records halts at page two with four pages allowed. -/
theorem claim5_witness :
    1 ≤ 2 ∧ 2 < 4 ∧
    (2, pageUrl wBase5 2, 0) ∈
      (scrapeMultiplePages "19-07-2025" wRender5 wBase5 4).fetchTrace ∧
    (2, altUrl wBase5 2, 0) ∈
      (scrapeMultiplePages "19-07-2025" wRender5 wBase5 4).fetchTrace ∧
    ((∀ q, 1 ≤ q → q ≤ 2 → ∃ m, (q, pageUrl wBase5 q, m) ∈
        (scrapeMultiplePages "19-07-2025" wRender5 wBase5 4).fetchTrace) ∧
      (∀ q u n, (q, u, n) ∈
        (scrapeMultiplePages "19-07-2025" wRender5 wBase5 4).fetchTrace → q ≤ 2)) := by
  refine ⟨by omega, by omega, by decide, by decide, ?_⟩
  exact claim5_pagination_stop "19-07-2025" wRender5 wBase5 4 2
    (by omega) (by omega) (by decide) (Or.inr (by decide))

/-! ## Claim C6: the alternative URL without the recency marker -/

lemma pyReplaceF_not_in (pat rep : List Char) :
    ∀ (f : Nat) (s : List Char), pyIn pat s = false → pyReplaceF pat rep f s = s := by
  intro f
  induction f with
  | zero => intro s _; rfl
  | succ f ih =>
    intro s h
    cases s with
    | nil => rfl
    | cons c t =>
      by_cases hl : leadsWith pat (c :: t) = true
      · exfalso
        unfold pyIn findSub at h
        rw [if_pos hl] at h
        simp at h
      · have hlf : leadsWith pat (c :: t) = false := Bool.eq_false_iff.mpr hl
        have ht : pyIn pat t = false := by
          unfold pyIn findSub at h
          rw [if_neg hl] at h
          unfold pyIn
          simpa using h
        have hcond : (!pat.isEmpty && leadsWith pat (c :: t)) = false := by
          rw [hlf, Bool.and_false]
        simp only [pyReplaceF]
        rw [hcond, if_neg Bool.false_ne_true, ih t ht]

lemma strLength_append (a b : String) : (a ++ b).length = a.length + b.length := by
  cases a with
  | mk la =>
    cases b with
    | mk lb =>
      show (la ++ lb).length = la.length + lb.length
      exact List.length_append la lb

lemma append_ne_self (a b c : String) (h : 0 < b.length) : a ++ b ++ c ≠ a := by
  intro he
  have hlen := congrArg String.length he
  rw [strLength_append, strLength_append] at hlen
  omega

/-- Base URL without the recency marker for the counterexample run. -/
def wBase6 : String := "https://example.com/list"

/-- Renderer yielding the scenario container only on that base URL. -/
def wRender6 : String → List Container := fun u => if u = wBase6 then [cScenario] else []

/-- Claim C6 counterexample: with a base URL that lacks the recency
marker, the alternative URL re-derived for page two equals the base URL
and differs from the fetched page URL, and the run trace shows the
second fetch with that different URL actually happening — the retry is
not a no-op. -/
theorem claim6_counterexample :
    pyIn "&recently=Y".toList wBase6.toList = false ∧
    altUrl wBase6 2 = wBase6 ∧
    pageUrl wBase6 2 ≠ altUrl wBase6 2 ∧
    (2, pageUrl wBase6 2, 0) ∈
      (scrapeMultiplePages "19-07-2025" wRender6 wBase6 3).fetchTrace ∧
    (2, altUrl wBase6 2, 0) ∈
      (scrapeMultiplePages "19-07-2025" wRender6 wBase6 3).fetchTrace := by
  decide

/-- Claim C6 (amended): for a base URL without the recency marker the
alternative URL always equals the base URL; on page one the retry is
therefore a no-op (the alternative equals the fetched URL), but on any
later page the alternative differs from the fetched page URL, so a
zero-yield page does trigger a second fetch, aimed at the base URL. -/
theorem claim6_alternate_url (base : String) (p : Nat)
    (hnm : pyIn "&recently=Y".toList base.toList = false) :
    altUrl base p = base ∧
    pageUrl base 1 = base ∧
    (2 ≤ p → pageUrl base p ≠ base) := by
  refine ⟨?_, by simp [pageUrl], ?_⟩
  · unfold altUrl
    rw [pyReplaceF_not_in _ _ _ _ hnm]
    cases base
    rfl
  · intro hp2
    unfold pageUrl
    rw [if_neg (by omega)]
    by_cases hq : elemD '?' base.toList = true
    · rw [if_pos hq]
      exact append_ne_self base "&page=" (toString p) (by decide)
    · rw [if_neg hq]
      exact append_ne_self base "?page=" (toString p) (by decide)

/-- Claim C6 witness. -/
theorem claim6_witness :
    pyIn "&recently=Y".toList wBase6.toList = false ∧
    (altUrl wBase6 2 = wBase6 ∧
      pageUrl wBase6 1 = wBase6 ∧
      (2 ≤ 2 → pageUrl wBase6 2 ≠ wBase6)) := by
  refine ⟨by decide, ?_⟩
  exact claim6_alternate_url wBase6 2 (by decide)

/-! ## Claims C7 and C8: filter invariants over whole runs -/

/-- Static facts about every record of a whole run. -/
lemma multiPage_mem (date : String) (render : String → List Container) (base : String) :
    ∀ (fuel page : Nat) (seen : List String) (r : RFQRecord),
      r ∈ (multiPageLoop date render base fuel page seen).records →
      r.title ≠ "N/A" ∧ ¬ r.title.length < 10 ∧ skipPromo r = false := by
  intro fuel
  induction fuel with
  | zero =>
    intro page seen r hr
    exact absurd hr (List.not_mem_nil r)
  | succ f ih =>
    intro page seen r hr
    simp only [multiPageLoop] at hr
    set pr := scrapePage date (render (pageUrl base page)) seen with hprd
    by_cases hpd : pr.1 = []
    · rw [if_pos hpd] at hr
      by_cases heq : altUrl base page = pageUrl base page
      · rw [if_pos heq] at hr
        exact absurd hr (List.not_mem_nil r)
      · rw [if_neg heq] at hr
        set pr2 := scrapePage date (render (altUrl base page)) pr.2 with hpr2d
        by_cases hpd2 : pr2.1 = []
        · rw [if_pos hpd2] at hr
          exact absurd hr (List.not_mem_nil r)
        · rw [if_neg hpd2] at hr
          rcases List.mem_append.mp hr with h | h
          · exact scrapePage_mem date (render (altUrl base page)) pr.2 r h
          · exact ih (page + 1) pr2.2 r h
    · rw [if_neg hpd] at hr
      rcases List.mem_append.mp hr with h | h
      · exact scrapePage_mem date (render (pageUrl base page)) seen r h
      · exact ih (page + 1) pr.2 r h

/-- Claim C7: a candidate whose lowercased title contains a denylisted
phrase is rejected by the filter, and consequently no record of any
accumulated run output contains a denylisted phrase in its title. -/
theorem claim7_denylist (date : String) (render : String → List Container)
    (base : String) (maxPages : Nat) (r r2 : RFQRecord) (w : String)
    (ps seen : List String) :
    (skipPromo r2 = true → acceptRecord r2 ps seen = false) ∧
    (r ∈ (scrapeMultiplePages date render base maxPages).records → w ∈ skipWords →
      pyIn w.toList (lowerL r.title.toList) = false) := by
  constructor
  · intro h
    unfold acceptRecord
    rw [h]
    simp
  · intro hr hw
    have hsp : skipPromo r = false :=
      (multiPage_mem date render base maxPages 1 [] r hr).2.2
    unfold skipPromo at hsp
    rw [List.any_eq_false] at hsp
    have := hsp w hw
    exact Bool.eq_false_iff.mpr this

/-- Base URL for the run witnesses of the filter claims. -/
def wBase7 : String := "https://b.example/rfq"

/-- Renderer returning the scenario container on every URL. -/
def wRender7 : String → List Container := fun _ => [cScenario]

/-- Record with a denylisted phrase in its title. -/
def rPromoW : RFQRecord :=
  { defaultRecord "01-01-2025" with title := "Please Buy Access Now Today" }

/-- Claim C7 witness. -/
theorem claim7_witness :
    skipPromo rPromoW = true ∧
    acceptRecord rPromoW [] [] = false ∧
    extract cScenario "19-07-2025" ∈
      (scrapeMultiplePages "19-07-2025" wRender7 wBase7 1).records ∧
    "buy access" ∈ skipWords ∧
    pyIn "buy access".toList (lowerL (extract cScenario "19-07-2025").title.toList) = false := by
  have h := claim7_denylist "19-07-2025" wRender7 wBase7 1
    (extract cScenario "19-07-2025") rPromoW "buy access" [] []
  exact ⟨by decide, h.1 (by decide), by decide, by decide, h.2 (by decide) (by decide)⟩

/-- Claim C8: a candidate with the sentinel title or a title shorter
than ten characters is rejected by the filter, and consequently no
record of any accumulated run output has the sentinel title or a title
shorter than ten characters. -/
theorem claim8_min_title (date : String) (render : String → List Container)
    (base : String) (maxPages : Nat) (r r2 : RFQRecord) (ps seen : List String) :
    ((r2.title = "N/A" ∨ r2.title.length < 10) → acceptRecord r2 ps seen = false) ∧
    (r ∈ (scrapeMultiplePages date render base maxPages).records →
      r.title ≠ "N/A" ∧ ¬ r.title.length < 10) := by
  constructor
  · intro h
    unfold acceptRecord skipBasic
    rcases h with h | h
    · rw [h]; simp
    · rw [decide_eq_true h]; simp
  · intro hr
    have h := multiPage_mem date render base maxPages 1 [] r hr
    exact ⟨h.1, h.2.1⟩

/-- Claim C8 witness. -/
theorem claim8_witness :
    ((defaultRecord "01-01-2025").title = "N/A" ∨
      (defaultRecord "01-01-2025").title.length < 10) ∧
    acceptRecord (defaultRecord "01-01-2025") [] [] = false ∧
    extract cScenario "19-07-2025" ∈
      (scrapeMultiplePages "19-07-2025" wRender7 wBase7 1).records ∧
    ((extract cScenario "19-07-2025").title ≠ "N/A" ∧
      ¬ (extract cScenario "19-07-2025").title.length < 10) := by
  have h := claim8_min_title "19-07-2025" wRender7 wBase7 1
    (extract cScenario "19-07-2025") (defaultRecord "01-01-2025") [] []
  exact ⟨Or.inl rfl, h.1 (Or.inl rfl), by decide, h.2 (by decide)⟩

end RFQScraper
